import Mathlib

/-!
Verification of the core game logic of the `wordle` repository
(`server/game.py`, `server/main.py`, `server/config.py`).

Python strings are modelled as `List Char` (`Str`), Python dicts as
association lists in insertion order, Python exceptions as `Except`
results that carry the state as it stood at the raise point, and
wall-clock floats (`time.time()`) as `Nat` parameters supplied by the
caller.
-/

set_option autoImplicit false

/-- Python strings, modelled as lists of characters. -/
abbrev Str := List Char

/-- A per-position scoring mark; `server/models.py` `GuessMark = Literal["hit","present","miss"]`. -/
inductive Mark where
  | hit
  | present
  | miss
deriving DecidableEq, Repr

/-- Status field of a player; `server/game.py` line 64: `"playing"|"won"|"lost"`. -/
inductive Status where
  | playing
  | won
  | lost
deriving DecidableEq, Repr

/-- ASCII fragment of Python `str.lower` applied character-wise; the inputs the
server feeds to `score_guess` are alphabetic ASCII, where this is exact. -/
def pyLowerChar (c : Char) : Char :=
  if 65 ≤ c.toNat ∧ c.toNat ≤ 90 then Char.ofNat (c.toNat + 32) else c

/-- First pass of `score_guess` (`server/game.py` lines 43-48), walking the
positions left to right over pairs `(guess[i], answer[i])`: a position is a
hit iff the letters agree, and every non-hit position bumps the remaining
count for its answer letter (`answer_counts`). -/
def firstPassAux : List (Char × Char) → List Mark → (Char → Nat) → List Mark × (Char → Nat)
  | [], marks, counts => (marks, counts)
  | (g, a) :: rest, marks, counts =>
      if g = a then
        firstPassAux rest (marks ++ [Mark.hit]) counts
      else
        firstPassAux rest (marks ++ [Mark.miss]) (fun c => if c = a then counts c + 1 else counts c)

/-- Second pass of `score_guess` (`server/game.py` lines 49-56), walking pairs
`(marks[i], guess[i])` left to right: hits are kept, and a non-hit position
becomes present (consuming one remaining count for its guess letter) iff the
remaining count is positive, otherwise it stays a miss. -/
def secondPassAux : List (Mark × Char) → List Mark → (Char → Nat) → List Mark
  | [], acc, _ => acc
  | (m, g) :: rest, acc, counts =>
      if m = Mark.hit then
        secondPassAux rest (acc ++ [Mark.hit]) counts
      else if 0 < counts g then
        secondPassAux rest (acc ++ [Mark.present]) (fun c => if c = g then counts c - 1 else counts c)
      else
        secondPassAux rest (acc ++ [Mark.miss]) counts

/-- Embedding of `score_guess` (`server/game.py` lines 37-57): lower-case both
words, run the hit pass, then the bounded present pass. -/
def score_guess (answer guess : Str) : List Mark :=
  let answerL := answer.map pyLowerChar
  let guessL := guess.map pyLowerChar
  let fp := firstPassAux (guessL.zip answerL) [] (fun _ => 0)
  secondPassAux (fp.1.zip guessL) [] fp.2

/-- Pass 1 of the two-pass reference algorithm exactly as the spec states it
(spec §4.1 step 1), written for comparison with the source's `score_guess`:
for each position, a hit iff the letters agree, otherwise tally the answer
letter of that position. -/
def specPass1 : List (Char × Char) → List Mark × (Char → Nat)
  | [] => ([], fun _ => 0)
  | (g, a) :: rest =>
      let r := specPass1 rest
      if g = a then (Mark.hit :: r.1, r.2)
      else (Mark.miss :: r.1, fun c => if c = a then r.2 c + 1 else r.2 c)

/-- Pass 2 of the two-pass reference algorithm exactly as the spec states it
(spec §4.1 step 2): each non-hit position becomes present, decrementing the
tally, iff the tally of its guess letter is positive, and a miss otherwise. -/
def specPass2 : List (Mark × Char) → (Char → Nat) → List Mark
  | [], _ => []
  | (m, g) :: rest, tally =>
      if m = Mark.hit then Mark.hit :: specPass2 rest tally
      else if 0 < tally g then
        Mark.present :: specPass2 rest (fun c => if c = g then tally c - 1 else tally c)
      else Mark.miss :: specPass2 rest tally

/-- The spec's two-pass reference scoring function (spec §4.1), assembled from
`specPass1` and `specPass2` on already-lowercase input. -/
def score_spec (answer guess : Str) : List Mark :=
  let fp := specPass1 (guess.zip answer)
  specPass2 (fp.1.zip guess) fp.2

/-- A character is a lowercase ASCII letter. -/
def isLowerAlpha (c : Char) : Prop := 97 ≤ c.toNat ∧ c.toNat ≤ 122

instance (c : Char) : Decidable (isLowerAlpha c) := by
  unfold isLowerAlpha; infer_instance

lemma pyLowerChar_eq_self {c : Char} (h : isLowerAlpha c) : pyLowerChar c = c := by
  unfold pyLowerChar
  rcases h with ⟨h1, _⟩
  rw [if_neg]
  omega

lemma map_pyLowerChar_eq_self {l : Str} (h : ∀ c ∈ l, isLowerAlpha c) :
    l.map pyLowerChar = l := by
  induction l with
  | nil => rfl
  | cons c rest ih =>
      simp only [List.map_cons, List.cons.injEq]
      exact ⟨pyLowerChar_eq_self (h c (by simp)), ih (fun d hd => h d (by simp [hd]))⟩

lemma firstPassAux_eq_specPass1 (l : List (Char × Char)) :
    ∀ (acc : List Mark) (counts : Char → Nat),
      firstPassAux l acc counts =
        (acc ++ (specPass1 l).1, fun c => counts c + (specPass1 l).2 c) := by
  induction l with
  | nil =>
      intro acc counts
      simp [firstPassAux, specPass1]
  | cons p rest ih =>
      intro acc counts
      obtain ⟨g, a⟩ := p
      by_cases hga : g = a
      · simp only [firstPassAux, specPass1, if_pos hga]
        rw [ih]
        simp
      · simp only [firstPassAux, specPass1, if_neg hga]
        rw [ih]
        refine congrArg₂ Prod.mk ?_ ?_
        · simp
        · funext c
          by_cases hc : c = a
          · simp only [if_pos hc]
            omega
          · simp only [if_neg hc]

lemma secondPassAux_eq_specPass2 (l : List (Mark × Char)) :
    ∀ (acc : List Mark) (counts : Char → Nat),
      secondPassAux l acc counts = acc ++ specPass2 l counts := by
  induction l with
  | nil =>
      intro acc counts
      simp [secondPassAux, specPass2]
  | cons p rest ih =>
      intro acc counts
      obtain ⟨m, g⟩ := p
      by_cases hm : m = Mark.hit
      · simp only [secondPassAux, specPass2, if_pos hm]
        rw [ih]; simp
      · by_cases hg : 0 < counts g
        · simp only [secondPassAux, specPass2, if_neg hm, if_pos hg]
          rw [ih]; simp
        · simp only [secondPassAux, specPass2, if_neg hm, if_neg hg]
          rw [ih]; simp

lemma score_guess_eq_score_spec {answer guess : Str}
    (ha : ∀ c ∈ answer, isLowerAlpha c) (hg : ∀ c ∈ guess, isLowerAlpha c) :
    score_guess answer guess = score_spec answer guess := by
  show secondPassAux
      ((firstPassAux ((guess.map pyLowerChar).zip (answer.map pyLowerChar)) [] (fun _ => 0)).1.zip
        (guess.map pyLowerChar)) []
      (firstPassAux ((guess.map pyLowerChar).zip (answer.map pyLowerChar)) [] (fun _ => 0)).2 =
    specPass2 ((specPass1 (guess.zip answer)).1.zip guess) (specPass1 (guess.zip answer)).2
  rw [map_pyLowerChar_eq_self ha, map_pyLowerChar_eq_self hg]
  rw [firstPassAux_eq_specPass1]
  simp only [List.nil_append]
  rw [secondPassAux_eq_specPass2]
  simp only [List.nil_append]
  congr 1
  funext c
  simp

/-- Test word "allot" from spec §8. -/
def allot : Str := ['a', 'l', 'l', 'o', 't']

/-- Test word "lolly" from spec §8. -/
def lolly : Str := ['l', 'o', 'l', 'l', 'y']

example : score_guess allot lolly =
    [Mark.present, Mark.present, Mark.hit, Mark.miss, Mark.miss] := by decide

example : score_guess ['c', 'r', 'a', 'n', 'e'] ['c', 'r', 'a', 'n', 'e'] =
    [Mark.hit, Mark.hit, Mark.hit, Mark.hit, Mark.hit] := by decide

example : score_guess ['a', 'b', 'c', 'd', 'e'] ['f', 'g', 'h', 'i', 'j'] =
    [Mark.miss, Mark.miss, Mark.miss, Mark.miss, Mark.miss] := by decide

/-- A recorded guess with its marks; `server/models.py` `GuessFeedback`. -/
structure GuessFeedback where
  guess : Str
  marks : List Mark
deriving DecidableEq, Repr

/-- Per-player mutable record; `server/game.py` lines 59-68 `PlayerState`.
The float timestamp `last_guess_ts` is modelled as a `Nat` clock value. -/
structure PlayerState where
  player_id : Str
  nickname : Str
  guesses : List GuessFeedback
  status : Status
  rounds_used : Nat
  last_guess_ts : Nat
  is_spectator : Bool
  was_creator : Bool
deriving DecidableEq, Repr

/-- Room record; `server/game.py` lines 70-78 `Room`. The `players` dict is an
association list in insertion order, and the float `created_at` is a `Nat`. -/
structure Room where
  room_id : Str
  answer : Str
  max_rounds : Nat
  players : List (Str × PlayerState)
  created_at : Nat
  game_over : Bool
  winner_ids : List Str
deriving DecidableEq, Repr

/-- Python dict lookup `d.get(k)` on an insertion-ordered association list. -/
def dlookup {α : Type} (k : Str) : List (Str × α) → Option α
  | [] => none
  | e :: rest => if e.1 = k then some e.2 else dlookup k rest

/-- Embedding of `Room.add_player` (`server/game.py` lines 80-87): insert a
fresh `PlayerState` only when the id is absent; a dict insertion goes at the
end of the insertion order. -/
def add_player (room : Room) (player_id nickname : Str) (is_spectator was_creator : Bool) : Room :=
  match dlookup player_id room.players with
  | some _ => room
  | none =>
      { room with
          players := room.players ++
            [(player_id,
              { player_id := player_id, nickname := nickname, guesses := [],
                status := Status.playing, rounds_used := 0, last_guess_ts := 0,
                is_spectator := is_spectator, was_creator := was_creator })] }

/-- Errors raised by `Room.submit_guess` (`server/game.py` lines 97-106); the
source raises `ValueError` with four distinct messages, which the spec names
`GameOverError`, `PlayerNotFoundError`, `SpectatorCannotGuessError` and
`AlreadyFinishedError`. -/
inductive GErr where
  | gameOver
  | playerNotFound
  | spectatorCannotGuess
  | alreadyFinished
deriving DecidableEq, Repr

/-- The submitter's record after the bookkeeping of `server/game.py` lines
110-113: increment `rounds_used`, append the feedback, stamp the clock. -/
def advancePlayer (p : PlayerState) (fb : GuessFeedback) (now : Nat) : PlayerState :=
  { p with rounds_used := p.rounds_used + 1,
           guesses := p.guesses ++ [fb],
           last_guess_ts := now }

/-- Value-level effect on the players dict of the win branch of `submit_guess`
(`server/game.py` lines 116-132): the submitter's entry becomes the mutated
winner record `p2`, and the loop marks every other non-spectator entry that is
still playing as lost. -/
def submitWinUpdate (player_id : Str) (p2 : PlayerState) (k : Str) (v : PlayerState) : PlayerState :=
  if k = player_id then p2
  else if v.is_spectator then v
  else if v.status = Status.playing then { v with status := Status.lost } else v

/-- Value-level effect on the players dict of the non-win branch: only the
submitter's entry is replaced (by its mutated record `p2`). -/
def submitNonWinUpdate (player_id : Str) (p2 : PlayerState) (k : Str) (v : PlayerState) : PlayerState :=
  if k = player_id then p2 else v

/-- The submitter's record after a winning guess (`server/game.py` lines
110-117): bookkeeping plus `status = "won"`. -/
def winnerRecord (room : Room) (p : PlayerState) (guess : Str) (now : Nat) : PlayerState :=
  { advancePlayer p ⟨guess, score_guess room.answer guess⟩ now with status := Status.won }

/-- The submitter's record after a non-winning guess (`server/game.py` lines
110-113 and 136-138): bookkeeping, then `status = "lost"` iff the incremented
`rounds_used` has reached `max_rounds`. -/
def advancedRecord (room : Room) (p : PlayerState) (guess : Str) (now : Nat) : PlayerState :=
  if room.max_rounds ≤ (advancePlayer p ⟨guess, score_guess room.answer guess⟩ now).rounds_used
  then { advancePlayer p ⟨guess, score_guess room.answer guess⟩ now with status := Status.lost }
  else advancePlayer p ⟨guess, score_guess room.answer guess⟩ now

/-- Room state after the win branch of `submit_guess` (`server/game.py` lines
116-134): the submitter becomes `won`, their id is appended to `winner_ids`
unless already present, `game_over` is set, and every other non-spectator
player still playing becomes `lost`. -/
def winResult (room : Room) (player_id : Str) (p : PlayerState) (guess : Str) (now : Nat) : Room :=
  { room with
      players := room.players.map
        (fun e => (e.1, submitWinUpdate player_id (winnerRecord room p guess now) e.1 e.2)),
      game_over := true,
      winner_ids :=
        if player_id ∈ room.winner_ids then room.winner_ids
        else room.winner_ids ++ [player_id] }

/-- The players dict after the non-win tail of `submit_guess`: only the
submitter's entry changes. -/
def nonWinPlayers (room : Room) (player_id : Str) (p : PlayerState) (guess : Str) (now : Nat) :
    List (Str × PlayerState) :=
  room.players.map (fun e => (e.1, submitNonWinUpdate player_id (advancedRecord room p guess now) e.1 e.2))

/-- Room state after the non-win tail of `submit_guess` (`server/game.py`
lines 136-145): the submitter is marked lost when the incremented
`rounds_used` has reached `max_rounds`, and `game_over` is set when every
non-spectator player (checked on the updated dict) is terminal. -/
def nonWinResult (room : Room) (player_id : Str) (p : PlayerState) (guess : Str) (now : Nat) : Room :=
  { room with
      players := nonWinPlayers room player_id p guess now,
      game_over :=
        if ((nonWinPlayers room player_id p guess now).filter (fun e => !e.2.is_spectator)).all
            (fun e => e.2.status == Status.won || e.2.status == Status.lost)
        then true else room.game_over }

/-- Embedding of `Room.submit_guess` (`server/game.py` lines 89-145). An
exception is modelled as an `Except.error` carrying the room as it stood at
the raise point; all four raises precede any mutation in the source. -/
def submit_guess (room : Room) (player_id : Str) (guess : Str) (now : Nat) :
    Except (GErr × Room) (GuessFeedback × Room) :=
  if room.game_over then .error (GErr.gameOver, room)
  else
    match dlookup player_id room.players with
    | none => .error (GErr.playerNotFound, room)
    | some p =>
        if p.is_spectator then .error (GErr.spectatorCannotGuess, room)
        else if p.status ≠ Status.playing then .error (GErr.alreadyFinished, room)
        else if (score_guess room.answer guess).all (· == Mark.hit) then
          .ok (⟨guess, score_guess room.answer guess⟩, winResult room player_id p guess now)
        else
          .ok (⟨guess, score_guess room.answer guess⟩, nonWinResult room player_id p guess now)

/-- Default round budget, `server/config.py` line 6. -/
def DEFAULT_MAX_ROUNDS : Nat := 6

/-- Signed membership token. Models the wire format produced by
`itsdangerous.TimestampSigner.sign`: the payload, the signing timestamp and a
MAC over both. -/
structure SignedToken where
  payload : Str
  timestamp : Nat
  sig : Nat
deriving DecidableEq, Repr

/-- Stand-in for `HMAC(secret, payload, timestamp)` of the external
`itsdangerous` signer; only the sign/unsign round-trip property of the MAC is
relevant to the claims about this repository's token code. -/
def signer_mac (payload : Str) (ts : Nat) : Nat :=
  payload.foldl (fun h c => h * 31 + c.toNat) 7 + ts

/-- Model of `TimestampSigner.sign`: attach the current timestamp and MAC. -/
def signer_sign (payload : Str) (now : Nat) : SignedToken :=
  ⟨payload, now, signer_mac payload now⟩

/-- Model of `TimestampSigner.unsign(token, max_age)`: fail (`BadSignature`,
whose subclass `SignatureExpired` covers the age check) unless the MAC
matches and the token is no older than `max_age`. -/
def signer_unsign : SignedToken → Nat → Nat → Except Unit Str
  | ⟨payload, ts, sig⟩, max_age, now =>
    if sig ≠ signer_mac payload ts then .error ()
    else if max_age < now - ts then .error ()
    else .ok payload

/-- Embedding of `issue_token` (`server/game.py` lines 176-177): sign the
payload `f"{room_id}:{player_id}"`. -/
def issue_token (room_id player_id : Str) (now : Nat) : SignedToken :=
  signer_sign (room_id ++ ':' :: player_id) now

/-- Python's `str.split(":")`: split on every colon, keeping empty pieces. -/
def pySplitColon : Str → List Str
  | [] => [[]]
  | c :: rest =>
      let r := pySplitColon rest
      if c = ':' then [] :: r
      else
        match r with
        | s :: ss => (c :: s) :: ss
        | [] => [[c]]

/-- The uncaught Python exception of `verify_token`: tuple unpacking of
`data.split(":")` raises `ValueError` when the number of pieces is not two. -/
inductive PyExn where
  | valueError
deriving DecidableEq, Repr

/-- Embedding of `verify_token` (`server/game.py` lines 179-185): unsign with
an 8-hour `max_age`, returning `False` on `BadSignature`; on success unpack
`rid, pid = data.split(":")` — which raises `ValueError` past the
`except BadSignature` handler when the payload does not split into exactly
two pieces — and compare both components. -/
def verify_token (t : SignedToken) (room_id player_id : Str) (now : Nat) : Except PyExn Bool :=
  match signer_unsign t (60 * 60 * 8) now with
  | .error _ => .ok false
  | .ok data =>
      match pySplitColon data with
      | [rid, pid] => .ok (decide (rid = room_id) && decide (pid = player_id))
      | _ => .error PyExn.valueError

/-- Embedding of `create_room` (`server/game.py` lines 156-164). The random
draws `new_room_id()` and `choose_answer()` enter as the parameters `rid` and
`ans`; the registry insertion `ROOMS[rid] = room` stores the very room object
returned here (the creator added by the subsequent `add_player` call is
visible through the alias), so the returned room is also the registered one. -/
def create_room (nickname player_id : Str) (max_rounds : Option Int)
    (rid : Str) (ans : Str) (now : Nat) : Room × SignedToken :=
  let mr : Nat :=
    match max_rounds with
    | some m => if 1 ≤ m ∧ m ≤ 10 then m.toNat else DEFAULT_MAX_ROUNDS
    | none => DEFAULT_MAX_ROUNDS
  let room0 : Room :=
    { room_id := rid, answer := ans, max_rounds := mr, players := [],
      created_at := now, game_over := false, winner_ids := [] }
  let room := add_player room0 player_id nickname false true
  (room, issue_token rid player_id now)

/-- One call against a room: the two mutating operations of the core. -/
inductive Op where
  | addPlayer (pid nickname : Str) (is_spectator was_creator : Bool)
  | submitGuess (pid : Str) (guess : Str) (now : Nat)

/-- Effect of one call on the room. A `submit_guess` exception propagates to
the transport layer and leaves the room as it stood at the raise point. -/
def applyOp (room : Room) : Op → Room
  | Op.addPlayer pid nick s c => add_player room pid nick s c
  | Op.submitGuess pid g now =>
      match submit_guess room pid g now with
      | .error (_, r) => r
      | .ok (_, r) => r

/-- Room state after a sequence of calls. -/
def runOps (room : Room) : List Op → Room
  | [] => room
  | op :: ops => runOps (applyOp room op) ops

/-- One `record_result(...)` invocation of the storage collaborator
(`server/db.py` line 40), captured as the argument tuple. -/
structure RecordCall where
  player_id : Str
  nickname : Str
  won : Bool
  rounds_used : Nat
  room_id : Str
  was_creator : Bool
deriving DecidableEq, Repr

/-- HTTP-level outcomes of `api_guess` (`server/main.py` lines 95-126):
401 on a missing or bad token, 404 on an unknown room, 400 on a guess outside
the word list or a `ValueError` from `submit_guess`, and an unhandled server
error when `verify_token` itself raises or the submitter vanished from the
dict (both unreachable on the server's own tokens and successful submits). -/
inductive ApiErr where
  | invalidToken
  | roomNotFound
  | guessNotInWords
  | badRequest (e : GErr)
  | internal
deriving DecidableEq, Repr

/-- Embedding of the `/api/guess` handler `api_guess` (`server/main.py` lines
95-126): verify the token, look the room up in the registry, check the word
list, submit the guess, and afterwards call `record_result` for the submitter
exactly when the submitter's own status is now terminal. The returned list
collects the `record_result` calls the handler makes. -/
def api_guess (rooms : List (Str × Room)) (words : List Str)
    (room_id player_id guess : Str) :
    Option SignedToken → Nat → Except ApiErr (GuessFeedback × Room × List RecordCall)
  | none, _ => .error ApiErr.invalidToken
  | some t, now =>
      match verify_token t room_id player_id now with
      | .error _ => .error ApiErr.internal
      | .ok false => .error ApiErr.invalidToken
      | .ok true =>
          match dlookup room_id rooms with
          | none => .error ApiErr.roomNotFound
          | some room =>
              if guess ∈ words then
                match submit_guess room player_id guess now with
                | .error (e, _) => .error (ApiErr.badRequest e)
                | .ok (fb, r) =>
                    match dlookup player_id r.players with
                    | none => .error ApiErr.internal
                    | some p =>
                        if p.status = Status.won ∨ p.status = Status.lost then
                          .ok (fb, r,
                            [{ player_id := p.player_id, nickname := p.nickname,
                               won := p.status == Status.won,
                               rounds_used := p.rounds_used,
                               room_id := r.room_id, was_creator := p.was_creator }])
                        else .ok (fb, r, [])
              else .error ApiErr.guessNotInWords

/-- Record calls made by one `api_guess` invocation (none when it errors). -/
def apiCalls (res : Except ApiErr (GuessFeedback × Room × List RecordCall)) : List RecordCall :=
  match res with
  | .ok (_, _, cs) => cs
  | .error _ => []

/-- Room state after one `api_guess` invocation (the given room when it errors
before or inside `submit_guess`, whose raises leave the room unchanged). -/
def apiRoom (dflt : Room) (res : Except ApiErr (GuessFeedback × Room × List RecordCall)) : Room :=
  match res with
  | .ok (_, r, _) => r
  | .error _ => dflt

lemma dlookup_map {f : Str → PlayerState → PlayerState} {l : List (Str × PlayerState)} {k : Str} :
    dlookup k (l.map (fun e => (e.1, f e.1 e.2))) = (dlookup k l).map (f k) := by
  induction l with
  | nil => rfl
  | cons e rest ih =>
      by_cases hk : e.1 = k
      · simp [dlookup, hk]
      · simp [dlookup, hk, ih]

lemma dlookup_mem {α : Type} {l : List (Str × α)} {k : Str} {v : α}
    (h : dlookup k l = some v) : (k, v) ∈ l := by
  induction l with
  | nil => simp [dlookup] at h
  | cons e rest ih =>
      by_cases hk : e.1 = k
      · simp [dlookup, hk] at h
        subst hk
        simp [← h]
      · simp [dlookup, hk] at h
        simp [ih h]

lemma dlookup_append_single {α : Type} {l : List (Str × α)} {k k2 : Str} {v : α}
    (h : dlookup k l = none) :
    dlookup k (l ++ [(k2, v)]) = if k2 = k then some v else none := by
  induction l with
  | nil => simp [dlookup]
  | cons e rest ih =>
      by_cases hk : e.1 = k
      · simp [dlookup, hk] at h
      · simp [dlookup, hk] at h ⊢
        exact ih h

lemma submit_guess_error {room : Room} {player_id guess : Str} {now : Nat}
    {e : GErr} {r : Room}
    (h : submit_guess room player_id guess now = .error (e, r)) : r = room := by
  unfold submit_guess at h
  split at h
  · exact (Prod.mk.injEq _ _ _ _ ▸ (Except.error.injEq _ _ ▸ h)).2.symm
  · split at h
    · exact (Prod.mk.injEq _ _ _ _ ▸ (Except.error.injEq _ _ ▸ h)).2.symm
    · split at h
      · exact (Prod.mk.injEq _ _ _ _ ▸ (Except.error.injEq _ _ ▸ h)).2.symm
      · split at h
        · exact (Prod.mk.injEq _ _ _ _ ▸ (Except.error.injEq _ _ ▸ h)).2.symm
        · split at h <;> cases h

lemma submit_guess_ok {room : Room} {player_id guess : Str} {now : Nat}
    {fb : GuessFeedback} {r : Room}
    (h : submit_guess room player_id guess now = .ok (fb, r)) :
    room.game_over = false ∧
    ∃ p, dlookup player_id room.players = some p ∧
      p.is_spectator = false ∧ p.status = Status.playing ∧
      fb = ⟨guess, score_guess room.answer guess⟩ ∧
      (((score_guess room.answer guess).all (· == Mark.hit) = true ∧
          r = winResult room player_id p guess now) ∨
       ((score_guess room.answer guess).all (· == Mark.hit) = false ∧
          r = nonWinResult room player_id p guess now)) := by
  unfold submit_guess at h
  split at h
  · cases h
  · rename_i hgo
    split at h
    · cases h
    · rename_i p hp
      split at h
      · cases h
      · rename_i hspec
        split at h
        · cases h
        · rename_i hstat
          refine ⟨by simpa using hgo, p, hp, by simpa using hspec, by simpa using hstat, ?_⟩
          split at h
          · rename_i hwin
            obtain ⟨hfb, hr⟩ := Prod.mk.injEq _ _ _ _ ▸ (Except.ok.injEq _ _ ▸ h)
            exact ⟨hfb.symm, Or.inl ⟨hwin, hr.symm⟩⟩
          · rename_i hwin
            obtain ⟨hfb, hr⟩ := Prod.mk.injEq _ _ _ _ ▸ (Except.ok.injEq _ _ ▸ h)
            exact ⟨hfb.symm, Or.inr ⟨by simpa using hwin, hr.symm⟩⟩

lemma submit_guess_of_conditions {room : Room} {player_id guess : Str} {now : Nat} {p : PlayerState}
    (hgo : room.game_over = false)
    (hp : dlookup player_id room.players = some p)
    (hspec : p.is_spectator = false)
    (hstat : p.status = Status.playing) :
    submit_guess room player_id guess now =
      if (score_guess room.answer guess).all (· == Mark.hit) then
        .ok (⟨guess, score_guess room.answer guess⟩, winResult room player_id p guess now)
      else
        .ok (⟨guess, score_guess room.answer guess⟩, nonWinResult room player_id p guess now) := by
  unfold submit_guess
  rw [hgo]
  simp only [Bool.false_eq_true, if_false, hp, hspec, hstat]
  simp

/-- Test word "crane" from spec §8. -/
def crane : Str := ['c', 'r', 'a', 'n', 'e']

/-- Concrete player id used in witnesses. -/
def pidA : Str := ['A']

/-- Concrete player id used in witnesses. -/
def pidB : Str := ['B']

/-- Concrete creator player, freshly joined. -/
def playerA : PlayerState :=
  { player_id := pidA, nickname := ['a'], guesses := [], status := Status.playing,
    rounds_used := 0, last_guess_ts := 0, is_spectator := false, was_creator := true }

/-- Concrete second player, freshly joined. -/
def playerB : PlayerState :=
  { player_id := pidB, nickname := ['b'], guesses := [], status := Status.playing,
    rounds_used := 0, last_guess_ts := 0, is_spectator := false, was_creator := false }

/-- Concrete two-player room with answer "crane" and no finished game. -/
def roomAB : Room :=
  { room_id := ['R'], answer := crane, max_rounds := 6,
    players := [(pidA, playerA), (pidB, playerB)], created_at := 0,
    game_over := false, winner_ids := [] }

/-- C1: for a room with `game_over` false and a non-spectator member whose
status is PLAYING, a submission whose marks are all HIT returns the computed
feedback from the win branch (no exhaustion or room-over-by-exhaustion check
runs: the submitter ends `won` unconditionally), sets the submitter's status
to WON, puts their id in `winner_ids` without duplicating it, sets
`game_over`, and flips every other non-spectator player still PLAYING to
LOST. -/
theorem C1_win_ends_room (room : Room) (player_id guess : Str) (now : Nat) (p : PlayerState)
    (hgo : room.game_over = false)
    (hp : dlookup player_id room.players = some p)
    (hspec : p.is_spectator = false)
    (hstat : p.status = Status.playing)
    (hwin : (score_guess room.answer guess).all (· == Mark.hit) = true) :
    submit_guess room player_id guess now =
      .ok (⟨guess, score_guess room.answer guess⟩, winResult room player_id p guess now) ∧
    (winResult room player_id p guess now).game_over = true ∧
    dlookup player_id (winResult room player_id p guess now).players =
      some (winnerRecord room p guess now) ∧
    (winnerRecord room p guess now).status = Status.won ∧
    player_id ∈ (winResult room player_id p guess now).winner_ids ∧
    (player_id ∈ room.winner_ids →
      (winResult room player_id p guess now).winner_ids = room.winner_ids) ∧
    (player_id ∉ room.winner_ids →
      (winResult room player_id p guess now).winner_ids = room.winner_ids ++ [player_id]) ∧
    (∀ qid q, (qid, q) ∈ room.players → qid ≠ player_id → q.is_spectator = false →
      q.status = Status.playing →
      (qid, { q with status := Status.lost }) ∈ (winResult room player_id p guess now).players) := by
  refine ⟨?_, rfl, ?_, rfl, ?_, ?_, ?_, ?_⟩
  · rw [submit_guess_of_conditions hgo hp hspec hstat, if_pos hwin]
  · show dlookup player_id (room.players.map
        (fun e => (e.1, submitWinUpdate player_id (winnerRecord room p guess now) e.1 e.2))) = _
    rw [dlookup_map, hp]
    simp [submitWinUpdate]
  · show player_id ∈
      (if player_id ∈ room.winner_ids then room.winner_ids else room.winner_ids ++ [player_id])
    by_cases hm : player_id ∈ room.winner_ids
    · simp [hm]
    · simp [hm]
  · intro hm
    show (if player_id ∈ room.winner_ids then room.winner_ids
          else room.winner_ids ++ [player_id]) = room.winner_ids
    simp [hm]
  · intro hm
    show (if player_id ∈ room.winner_ids then room.winner_ids
          else room.winner_ids ++ [player_id]) = room.winner_ids ++ [player_id]
    simp [hm]
  · intro qid q hq hne hsp hpl
    show (qid, { q with status := Status.lost }) ∈ room.players.map
        (fun e => (e.1, submitWinUpdate player_id (winnerRecord room p guess now) e.1 e.2))
    refine List.mem_map.mpr ⟨(qid, q), hq, ?_⟩
    simp [submitWinUpdate, hne, hsp, hpl]

theorem C1_win_ends_room_witness :
    submit_guess roomAB pidA crane 5 =
      .ok (⟨crane, score_guess roomAB.answer crane⟩, winResult roomAB pidA playerA crane 5) ∧
    (winResult roomAB pidA playerA crane 5).game_over = true ∧
    pidA ∈ (winResult roomAB pidA playerA crane 5).winner_ids :=
  have h := C1_win_ends_room roomAB pidA crane 5 playerA rfl (by decide) rfl rfl (by decide)
  ⟨h.1, h.2.1, h.2.2.2.2.1⟩

/-- C2: the source's `score_guess` agrees with the spec's two-pass reference
algorithm on every pair of 5-letter lowercase alphabetic words, and on
answer "allot" versus guess "lolly" exactly two of the positions where the
guess has an 'l' carry a non-MISS mark. -/
theorem C2_two_pass_scoring (answer guess : Str)
    (_hal : answer.length = 5) (_hgl : guess.length = 5)
    (ha : ∀ c ∈ answer, isLowerAlpha c) (hg : ∀ c ∈ guess, isLowerAlpha c) :
    score_guess answer guess = score_spec answer guess ∧
    ((score_guess allot lolly).zip lolly).countP
      (fun q => decide (q.2 = 'l') && !decide (q.1 = Mark.miss)) = 2 :=
  ⟨score_guess_eq_score_spec ha hg, by decide⟩

theorem C2_two_pass_scoring_witness :
    score_guess allot lolly = score_spec allot lolly ∧
    ((score_guess allot lolly).zip lolly).countP
      (fun q => decide (q.2 = 'l') && !decide (q.1 = Mark.miss)) = 2 :=
  C2_two_pass_scoring allot lolly (by decide) (by decide) (by decide) (by decide)

/-- Concrete room whose game is already over. -/
def roomOver : Room := { roomAB with game_over := true }

/-- C3: `submit_guess` fails exactly under the four spec'd conditions, tried
in precedence order — game already over, unknown player id, spectator,
finished player — and every failure leaves the room exactly as it was, since
all raises precede any mutation. -/
theorem C3_failure_model (room : Room) (player_id guess : Str) (now : Nat) :
    (submit_guess room player_id guess now = .error (GErr.gameOver, room) ↔
      room.game_over = true) ∧
    (submit_guess room player_id guess now = .error (GErr.playerNotFound, room) ↔
      room.game_over = false ∧ dlookup player_id room.players = none) ∧
    (submit_guess room player_id guess now = .error (GErr.spectatorCannotGuess, room) ↔
      room.game_over = false ∧
        ∃ p, dlookup player_id room.players = some p ∧ p.is_spectator = true) ∧
    (submit_guess room player_id guess now = .error (GErr.alreadyFinished, room) ↔
      room.game_over = false ∧
        ∃ p, dlookup player_id room.players = some p ∧ p.is_spectator = false ∧
          p.status ≠ Status.playing) ∧
    ((∃ e r, submit_guess room player_id guess now = Except.error (e, r)) ↔
      (room.game_over = true ∨ dlookup player_id room.players = none ∨
        ∃ p, dlookup player_id room.players = some p ∧
          (p.is_spectator = true ∨ p.status ≠ Status.playing))) ∧
    (∀ e r, submit_guess room player_id guess now = Except.error (e, r) → r = room) := by
  have hlast : ∀ e r, submit_guess room player_id guess now = Except.error (e, r) → r = room :=
    fun _ _ h => submit_guess_error h
  rcases Bool.eq_false_or_eq_true room.game_over with hgo | hgo
  · have hsub : submit_guess room player_id guess now = .error (GErr.gameOver, room) := by
      unfold submit_guess
      rw [hgo]
      simp
    refine ⟨?_, ?_, ?_, ?_, ?_, hlast⟩
    · rw [hsub]; simp [hgo]
    · rw [hsub]; simp [hgo]
    · rw [hsub]; simp [hgo]
    · rw [hsub]; simp [hgo]
    · rw [hsub]; simp [hgo]
  · rcases hlk : dlookup player_id room.players with _ | p
    · have hsub : submit_guess room player_id guess now = .error (GErr.playerNotFound, room) := by
        unfold submit_guess
        rw [hgo]
        simp [hlk]
      refine ⟨?_, ?_, ?_, ?_, ?_, hlast⟩
      · rw [hsub]; simp [hgo]
      · rw [hsub]; simp [hgo, hlk]
      · rw [hsub]; simp [hlk]
      · rw [hsub]; simp [hlk]
      · rw [hsub]; simp [hgo, hlk]
    · rcases Bool.eq_false_or_eq_true p.is_spectator with hsp | hsp
      · have hsub : submit_guess room player_id guess now =
            .error (GErr.spectatorCannotGuess, room) := by
          unfold submit_guess
          rw [hgo]
          simp [hlk, hsp]
        refine ⟨?_, ?_, ?_, ?_, ?_, hlast⟩
        · rw [hsub]; simp [hgo]
        · rw [hsub]; simp [hgo, hlk]
        · rw [hsub]; simp [hgo, hlk, hsp]
        · rw [hsub]; simp [hlk, hsp]
        · rw [hsub]; simp [hgo, hlk, hsp]
      · by_cases hst : p.status = Status.playing
        · by_cases hw : (score_guess room.answer guess).all (· == Mark.hit) = true
          · have hsub := @submit_guess_of_conditions room player_id guess now p hgo hlk hsp hst
            rw [if_pos hw] at hsub
            refine ⟨?_, ?_, ?_, ?_, ?_, hlast⟩
            · rw [hsub]; simp [hgo]
            · rw [hsub]; simp [hgo, hlk]
            · rw [hsub]; simp [hlk, hsp]
            · rw [hsub]; simp [hlk, hst]
            · rw [hsub]; simp [hgo, hlk, hsp, hst]
          · have hsub := @submit_guess_of_conditions room player_id guess now p hgo hlk hsp hst
            rw [if_neg hw] at hsub
            refine ⟨?_, ?_, ?_, ?_, ?_, hlast⟩
            · rw [hsub]; simp [hgo]
            · rw [hsub]; simp [hgo, hlk]
            · rw [hsub]; simp [hlk, hsp]
            · rw [hsub]; simp [hlk, hst]
            · rw [hsub]; simp [hgo, hlk, hsp, hst]
        · have hsub : submit_guess room player_id guess now =
              .error (GErr.alreadyFinished, room) := by
            unfold submit_guess
            rw [hgo]
            simp [hlk, hsp, hst]
          refine ⟨?_, ?_, ?_, ?_, ?_, hlast⟩
          · rw [hsub]; simp [hgo]
          · rw [hsub]; simp [hgo, hlk]
          · rw [hsub]; simp [hlk, hsp]
          · rw [hsub]; simp [hgo, hlk, hsp, hst]
          · rw [hsub]; simp [hgo, hlk, hst]

theorem C3_failure_model_witness :
    roomOver.game_over = true ∧
    submit_guess roomOver pidA crane 0 = .error (GErr.gameOver, roomOver) :=
  ⟨rfl, (C3_failure_model roomOver pidA crane 0).1.mpr rfl⟩

/-- Test word "cigar", a non-winning guess against "crane". -/
def cigar : Str := ['c', 'i', 'g', 'a', 'r']

/-- C4: a successful non-winning submission leaves `winner_ids` unchanged
(so a room that later ends by exhaustion keeps an empty winner list), marks
the submitter — and only the submitter — LOST exactly when the incremented
`rounds_used` reaches `max_rounds`, and afterwards sets `game_over` iff every
non-spectator entry of the updated dict has terminal status. -/
theorem C4_exhaustion_rules (room : Room) (player_id guess : Str) (now : Nat) (p : PlayerState)
    (hgo : room.game_over = false)
    (hp : dlookup player_id room.players = some p)
    (hspec : p.is_spectator = false)
    (hstat : p.status = Status.playing)
    (hnw : (score_guess room.answer guess).all (· == Mark.hit) = false) :
    submit_guess room player_id guess now =
      .ok (⟨guess, score_guess room.answer guess⟩, nonWinResult room player_id p guess now) ∧
    (nonWinResult room player_id p guess now).winner_ids = room.winner_ids ∧
    (room.winner_ids = [] → (nonWinResult room player_id p guess now).winner_ids = []) ∧
    dlookup player_id (nonWinResult room player_id p guess now).players =
      some (advancedRecord room p guess now) ∧
    (room.max_rounds ≤ p.rounds_used + 1 →
      (advancedRecord room p guess now).status = Status.lost) ∧
    (p.rounds_used + 1 < room.max_rounds →
      (advancedRecord room p guess now).status = Status.playing) ∧
    (∀ qid q, (qid, q) ∈ room.players → qid ≠ player_id →
      (qid, q) ∈ (nonWinResult room player_id p guess now).players) ∧
    ((nonWinResult room player_id p guess now).game_over = true ↔
      ∀ e ∈ (nonWinResult room player_id p guess now).players,
        e.2.is_spectator = false → (e.2.status = Status.won ∨ e.2.status = Status.lost)) := by
  refine ⟨?_, rfl, fun h => h, ?_, ?_, ?_, ?_, ?_⟩
  · rw [submit_guess_of_conditions hgo hp hspec hstat, if_neg (by simp [hnw])]
  · show dlookup player_id (nonWinPlayers room player_id p guess now) = _
    unfold nonWinPlayers
    rw [dlookup_map, hp]
    simp [submitNonWinUpdate]
  · intro h
    simp only [advancedRecord]
    rw [show (advancePlayer p ⟨guess, score_guess room.answer guess⟩ now).rounds_used =
        p.rounds_used + 1 from rfl]
    rw [if_pos h]
  · intro h
    simp only [advancedRecord]
    rw [show (advancePlayer p ⟨guess, score_guess room.answer guess⟩ now).rounds_used =
        p.rounds_used + 1 from rfl]
    rw [if_neg (by omega)]
    exact hstat
  · intro qid q hq hne
    show (qid, q) ∈ nonWinPlayers room player_id p guess now
    unfold nonWinPlayers
    refine List.mem_map.mpr ⟨(qid, q), hq, ?_⟩
    simp [submitNonWinUpdate, hne]
  · show (if ((nonWinPlayers room player_id p guess now).filter (fun e => !e.2.is_spectator)).all
        (fun e => e.2.status == Status.won || e.2.status == Status.lost) = true
      then true else room.game_over) = true ↔ _
    by_cases hc : ((nonWinPlayers room player_id p guess now).filter
        (fun e => !e.2.is_spectator)).all
        (fun e => e.2.status == Status.won || e.2.status == Status.lost) = true
    · rw [if_pos hc]
      simp only [true_iff]
      intro e he hs
      have := List.all_eq_true.mp hc e (List.mem_filter.mpr ⟨he, by simp [hs]⟩)
      simpa using this
    · rw [if_neg hc, hgo]
      simp only [Bool.false_eq_true, false_iff]
      intro hall
      apply hc
      refine List.all_eq_true.mpr ?_
      intro e he
      have hmem := List.mem_filter.mp he
      have := hall e hmem.1 (by simpa using hmem.2)
      simpa using this

theorem C4_exhaustion_rules_witness :
    submit_guess roomAB pidA cigar 7 =
      .ok (⟨cigar, score_guess roomAB.answer cigar⟩, nonWinResult roomAB pidA playerA cigar 7) ∧
    (nonWinResult roomAB pidA playerA cigar 7).winner_ids = roomAB.winner_ids :=
  have h := C4_exhaustion_rules roomAB pidA cigar 7 playerA rfl (by decide) rfl rfl (by decide)
  ⟨h.1, h.2.1⟩

/-- C7: `add_player` with an id that is already a member is a no-op for every
nickname and flag combination — it cannot fail and the whole room, including
the existing player's record, is untouched. -/
theorem C7_add_player_idempotent (room : Room) (player_id nickname : Str)
    (is_spectator was_creator : Bool) (p : PlayerState)
    (hp : dlookup player_id room.players = some p) :
    add_player room player_id nickname is_spectator was_creator = room := by
  unfold add_player
  rw [hp]

theorem C7_add_player_idempotent_witness :
    add_player roomAB pidA ['z'] true false = roomAB :=
  C7_add_player_idempotent roomAB pidA ['z'] true false playerA (by decide)

/-- C8: `create_room` is total — no `InvalidMaxRoundsError` exists in the
source — and the created room's `max_rounds` is the requested value when it
is an integer in [1,10] and the configured default (6) otherwise, hence it
always lies in [1,10]. -/
theorem C8_create_room_clamps (nickname player_id : Str) (max_rounds : Option Int)
    (rid ans : Str) (now : Nat) :
    (1 ≤ (create_room nickname player_id max_rounds rid ans now).1.max_rounds ∧
      (create_room nickname player_id max_rounds rid ans now).1.max_rounds ≤ 10) ∧
    (∀ m : Int, max_rounds = some m → 1 ≤ m → m ≤ 10 →
      (create_room nickname player_id max_rounds rid ans now).1.max_rounds = m.toNat) ∧
    (∀ m : Int, max_rounds = some m → (m < 1 ∨ 10 < m) →
      (create_room nickname player_id max_rounds rid ans now).1.max_rounds =
        DEFAULT_MAX_ROUNDS) ∧
    (max_rounds = none →
      (create_room nickname player_id max_rounds rid ans now).1.max_rounds =
        DEFAULT_MAX_ROUNDS) := by
  refine ⟨?_, ?_, ?_, ?_⟩
  · rcases max_rounds with _ | m
    · show 1 ≤ DEFAULT_MAX_ROUNDS ∧ DEFAULT_MAX_ROUNDS ≤ 10
      decide
    · by_cases hm : 1 ≤ m ∧ m ≤ 10
      · show 1 ≤ (if 1 ≤ m ∧ m ≤ 10 then m.toNat else DEFAULT_MAX_ROUNDS) ∧
          (if 1 ≤ m ∧ m ≤ 10 then m.toNat else DEFAULT_MAX_ROUNDS) ≤ 10
        rw [if_pos hm]
        omega
      · show 1 ≤ (if 1 ≤ m ∧ m ≤ 10 then m.toNat else DEFAULT_MAX_ROUNDS) ∧
          (if 1 ≤ m ∧ m ≤ 10 then m.toNat else DEFAULT_MAX_ROUNDS) ≤ 10
        rw [if_neg hm]
        show 1 ≤ DEFAULT_MAX_ROUNDS ∧ DEFAULT_MAX_ROUNDS ≤ 10
        decide
  · intro m hm h1 h10
    subst hm
    show (if 1 ≤ m ∧ m ≤ 10 then m.toNat else DEFAULT_MAX_ROUNDS) = m.toNat
    rw [if_pos ⟨h1, h10⟩]
  · intro m hm hout
    subst hm
    show (if 1 ≤ m ∧ m ≤ 10 then m.toNat else DEFAULT_MAX_ROUNDS) = DEFAULT_MAX_ROUNDS
    rw [if_neg]
    omega
  · intro hm
    subst hm
    rfl

theorem C8_create_room_clamps_witness :
    (create_room ['n'] pidA (some 15) ['R'] crane 0).1.max_rounds = DEFAULT_MAX_ROUNDS ∧
    1 ≤ (create_room ['n'] pidA (some 15) ['R'] crane 0).1.max_rounds ∧
    (create_room ['n'] pidA (some 15) ['R'] crane 0).1.max_rounds ≤ 10 :=
  ⟨(C8_create_room_clamps ['n'] pidA (some 15) ['R'] crane 0).2.2.1 15 rfl (by omega),
   (C8_create_room_clamps ['n'] pidA (some 15) ['R'] crane 0).1⟩

lemma pySplitColon_no_colon {l : Str} (h : ':' ∉ l) : pySplitColon l = [l] := by
  induction l with
  | nil => rfl
  | cons c rest ih =>
      have hc : c ≠ ':' := fun hh => h (hh ▸ List.mem_cons_self c rest)
      have hr : ':' ∉ rest := fun hm => h (List.mem_cons_of_mem c hm)
      simp only [pySplitColon, if_neg hc, ih hr]

lemma pySplitColon_append {a : Str} (b : Str) (ha : ':' ∉ a) :
    pySplitColon (a ++ ':' :: b) = a :: pySplitColon b := by
  induction a with
  | nil => simp [pySplitColon]
  | cons c rest ih =>
      have hc : c ≠ ':' := fun hh => ha (hh ▸ List.mem_cons_self c rest)
      have hr : ':' ∉ rest := fun hm => ha (List.mem_cons_of_mem c hm)
      simp only [List.cons_append, pySplitColon, if_neg hc, List.append_eq, ih hr]

/-- C9 counterexample: a player id containing a colon round-trips into a
payload that splits into three pieces, so `verify_token` raises `ValueError`
instead of returning `True`, even on an untampered fresh token. -/
theorem C9_roundtrip_counterexample :
    verify_token (issue_token ['R'] ['a', ':', 'b'] 0) ['R'] ['a', ':', 'b'] 0 =
      .error PyExn.valueError := rfl

/-- C9 (amended): for every room code and player id that contain no colon,
verifying a freshly issued token within the 8-hour window returns `True`;
ids with a colon instead make the tuple unpacking in `verify_token` raise. -/
theorem C9_token_roundtrip (room_id player_id : Str) (t_issue t_verify : Nat)
    (hr : ':' ∉ room_id) (hp : ':' ∉ player_id)
    (hage : t_verify - t_issue ≤ 60 * 60 * 8) :
    verify_token (issue_token room_id player_id t_issue) room_id player_id t_verify =
      .ok true := by
  have h1 : signer_unsign (signer_sign (room_id ++ ':' :: player_id) t_issue)
      (60 * 60 * 8) t_verify = .ok (room_id ++ ':' :: player_id) := by
    simp only [signer_sign, signer_unsign]
    rw [if_neg (by simp), if_neg (by omega)]
  unfold verify_token issue_token
  rw [h1]
  simp [pySplitColon_append player_id hr, pySplitColon_no_colon hp]

theorem C9_token_roundtrip_witness :
    verify_token (issue_token ['R'] ['a'] 100) ['R'] ['a'] 200 = .ok true :=
  C9_token_roundtrip ['R'] ['a'] 100 200 (by decide) (by decide) (by decide)

/-- Registry fixture holding the two-player room under code "R". -/
def ridR : Str := ['R']

/-- Word list fixture containing the answer "crane". -/
def words0 : List Str := [crane]

/-- Registry fixture: the room registry with `roomAB` registered. -/
def rooms0 : List (Str × Room) := [(ridR, roomAB)]

/-- A valid token for player A in room "R". -/
def tok0 : SignedToken := issue_token ridR pidA 0

/-- C5 counterexample: player A's winning guess flips player B to LOST, yet
the handler records a result only for A — the record-call list of the request
names A alone while B's status in the resulting room is LOST, so B never
gets a `record_result` call at the moment their status first becomes
terminal. -/
theorem C5_record_result_counterexample :
    (apiCalls (api_guess rooms0 words0 ridR pidA crane (some tok0) 0)).map
        (fun c => c.player_id) = [pidA] ∧
    (dlookup pidB (apiRoom roomAB (api_guess rooms0 words0 ridR pidA crane (some tok0) 0)).players).map
        (fun q => q.status) = some Status.lost := by decide

/-- C5 (amended): `record_result` is called only for the submitting player —
after a successful `/api/guess`, exactly one call is made, with the
submitter's stored data, when the submitter's own status is now terminal, and
none otherwise; moreover once the submitter is terminal every further
`submit_guess` for them fails without mutating the room, so no second call
for the same player and game can ever happen. Players flipped to LOST by
another player's win get no call. -/
theorem C5_record_result_submitter_only (rooms : List (Str × Room)) (words : List Str)
    (room_id player_id guess : Str) (t : SignedToken) (now : Nat)
    (fb : GuessFeedback) (r : Room) (cs : List RecordCall)
    (h : api_guess rooms words room_id player_id guess (some t) now = .ok (fb, r, cs)) :
    ∃ p, dlookup player_id r.players = some p ∧
      cs = (if p.status = Status.won ∨ p.status = Status.lost then
          [{ player_id := p.player_id, nickname := p.nickname,
             won := p.status == Status.won, rounds_used := p.rounds_used,
             room_id := r.room_id, was_creator := p.was_creator }]
        else []) ∧
      ((p.status = Status.won ∨ p.status = Status.lost) →
        ∀ g2 now2, ∃ e, submit_guess r player_id g2 now2 = .error (e, r)) := by
  simp only [api_guess] at h
  rcases hv : verify_token t room_id player_id now with e | b
  · simp [hv] at h
  · rcases b with _ | _
    · simp [hv] at h
    · simp only [hv] at h
      rcases hroom : dlookup room_id rooms with _ | room
      · simp [hroom] at h
      · simp only [hroom] at h
        by_cases hwd : guess ∈ words
        · rw [if_pos hwd] at h
          rcases hsg : submit_guess room player_id guess now with ep | okp
          · obtain ⟨e0, r0⟩ := ep
            simp [hsg] at h
          · obtain ⟨fb0, r0⟩ := okp
            simp only [hsg] at h
            rcases hlk0 : dlookup player_id r0.players with _ | p
            · simp [hlk0] at h
            · simp only [hlk0] at h
              by_cases hterm : p.status = Status.won ∨ p.status = Status.lost
              · rw [if_pos hterm] at h
                simp only [Except.ok.injEq, Prod.mk.injEq] at h
                obtain ⟨hfb, hr, hcs⟩ := h
                subst hr
                refine ⟨p, hlk0, by rw [if_pos hterm, ← hcs], ?_⟩
                intro _ g2 now2
                have hne : p.status ≠ Status.playing := by
                  rcases hterm with h1 | h1 <;> simp [h1]
                rcases Bool.eq_false_or_eq_true r0.game_over with hgo2 | hgo2
                · exact ⟨GErr.gameOver, by unfold submit_guess; rw [hgo2]; simp⟩
                · rcases Bool.eq_false_or_eq_true p.is_spectator with hsp2 | hsp2
                  · exact ⟨GErr.spectatorCannotGuess, by
                      unfold submit_guess; rw [hgo2]; simp [hlk0, hsp2]⟩
                  · exact ⟨GErr.alreadyFinished, by
                      unfold submit_guess; rw [hgo2]; simp [hlk0, hsp2, hne]⟩
              · rw [if_neg hterm] at h
                simp only [Except.ok.injEq, Prod.mk.injEq] at h
                obtain ⟨hfb, hr, hcs⟩ := h
                subst hr
                exact ⟨p, hlk0, by rw [if_neg hterm, ← hcs], fun ht => absurd ht hterm⟩
        · rw [if_neg hwd] at h
          simp at h

/-- Feedback returned for the winning witness guess. -/
def fbW : GuessFeedback := ⟨crane, score_guess crane crane⟩

/-- Room state after the winning witness guess. -/
def roomW : Room := winResult roomAB pidA playerA crane 0

/-- The single record call made for the winning witness guess. -/
def callsW : List RecordCall :=
  [{ player_id := pidA, nickname := ['a'], won := true, rounds_used := 1,
     room_id := ridR, was_creator := true }]

theorem C5_record_result_submitter_only_witness :
    api_guess rooms0 words0 ridR pidA crane (some tok0) 0 = .ok (fbW, roomW, callsW) ∧
    ∃ p, dlookup pidA roomW.players = some p ∧
      callsW = (if p.status = Status.won ∨ p.status = Status.lost then
          [{ player_id := p.player_id, nickname := p.nickname,
             won := p.status == Status.won, rounds_used := p.rounds_used,
             room_id := roomW.room_id, was_creator := p.was_creator }]
        else []) ∧
      ((p.status = Status.won ∨ p.status = Status.lost) →
        ∀ g2 now2, ∃ e, submit_guess roomW pidA g2 now2 = .error (e, roomW)) :=
  ⟨rfl,
   C5_record_result_submitter_only rooms0 words0 ridR pidA crane tok0 0 fbW roomW callsW
     rfl⟩

/-- Invariant backing C6: with the game still running the winner list is
empty, and the winner list never holds more than one id. -/
def inv6 (r : Room) : Prop :=
  (r.game_over = false → r.winner_ids = []) ∧ r.winner_ids.length ≤ 1

lemma add_player_fields (room : Room) (pid nick : Str) (s c : Bool) :
    (add_player room pid nick s c).game_over = room.game_over ∧
    (add_player room pid nick s c).winner_ids = room.winner_ids ∧
    (add_player room pid nick s c).players = room.players ∨
    (add_player room pid nick s c).game_over = room.game_over ∧
    (add_player room pid nick s c).winner_ids = room.winner_ids ∧
    (add_player room pid nick s c).players = room.players ++
      [(pid, { player_id := pid, nickname := nick, guesses := [], status := Status.playing,
               rounds_used := 0, last_guess_ts := 0, is_spectator := s, was_creator := c })] := by
  unfold add_player
  cases hlk : dlookup pid room.players with
  | some q => exact Or.inl ⟨rfl, rfl, rfl⟩
  | none => exact Or.inr ⟨rfl, rfl, rfl⟩

lemma applyOp_game_over_mono (r : Room) (op : Op) (h : r.game_over = true) :
    (applyOp r op).game_over = true := by
  cases op with
  | addPlayer pid nick s c =>
      show (add_player r pid nick s c).game_over = true
      unfold add_player
      cases hlk : dlookup pid r.players with
      | some q => exact h
      | none => exact h
  | submitGuess pid g now =>
      have hsub : submit_guess r pid g now = .error (GErr.gameOver, r) := by
        unfold submit_guess
        rw [h]
        simp
      show (match submit_guess r pid g now with
            | .error (_, rr) => rr
            | .ok (_, rr) => rr).game_over = true
      rw [hsub]
      exact h

lemma inv6_applyOp {r : Room} (h : inv6 r) (op : Op) : inv6 (applyOp r op) := by
  cases op with
  | addPlayer pid nick s c =>
      rcases add_player_fields r pid nick s c with ⟨hg, hw, _⟩ | ⟨hg, hw, _⟩ <;>
        exact ⟨fun hh => hw.trans (h.1 (hg ▸ hh)), hw ▸ h.2⟩
  | submitGuess pid g now =>
      rcases hsg : submit_guess r pid g now with ⟨e0, r0⟩ | ⟨fb0, r0⟩
      · have happ : applyOp r (Op.submitGuess pid g now) = r0 := by
          show (match submit_guess r pid g now with
                | .error (_, rr) => rr
                | .ok (_, rr) => rr) = r0
          rw [hsg]
        rw [happ, submit_guess_error hsg]
        exact h
      · have happ : applyOp r (Op.submitGuess pid g now) = r0 := by
          show (match submit_guess r pid g now with
                | .error (_, rr) => rr
                | .ok (_, rr) => rr) = r0
          rw [hsg]
        rw [happ]
        obtain ⟨hgo, p, hp, hspec, hstat, hfb, hbranch⟩ := submit_guess_ok hsg
        have hw : r.winner_ids = [] := h.1 hgo
        rcases hbranch with ⟨hall, hr0⟩ | ⟨hall, hr0⟩ <;> subst hr0
        · refine ⟨fun hh => ?_, ?_⟩
          · rw [show (winResult r pid p g now).game_over = true from rfl] at hh
            exact Bool.noConfusion hh
          · show (if pid ∈ r.winner_ids then r.winner_ids
                  else r.winner_ids ++ [pid]).length ≤ 1
            rw [hw]
            simp
        · refine ⟨fun _ => ?_, ?_⟩
          · show r.winner_ids = []
            exact hw
          · show r.winner_ids.length ≤ 1
            rw [hw]
            simp

lemma inv6_create (nickname player_id : Str) (mr : Option Int) (rid ans : Str) (now : Nat) :
    inv6 (create_room nickname player_id mr rid ans now).1 := by
  constructor
  · intro _
    rfl
  · show ([] : List Str).length ≤ 1
    decide

lemma inv6_run {r : Room} (h : inv6 r) (ops : List Op) : inv6 (runOps r ops) := by
  induction ops generalizing r with
  | nil => exact h
  | cons op ops ih => exact ih (inv6_applyOp h op)

/-- C6: in every room state reachable from a fresh `create_room` by
`add_player` and `submit_guess` calls, `winner_ids` holds at most one id, and
the `game_over` flag is monotone — no call ever turns it from true back to
false (a submission against a finished room raises before touching it). -/
theorem C6_room_invariants (nickname player_id : Str) (mr : Option Int)
    (rid ans : Str) (now : Nat) (ops : List Op) :
    (runOps (create_room nickname player_id mr rid ans now).1 ops).winner_ids.length ≤ 1 ∧
    (∀ (r : Room) (op : Op), r.game_over = true → (applyOp r op).game_over = true) :=
  ⟨(inv6_run (inv6_create nickname player_id mr rid ans now) ops).2,
   fun r op h => applyOp_game_over_mono r op h⟩

theorem C6_room_invariants_witness :
    (runOps (create_room ['n'] pidA none ['R'] crane 0).1
        [Op.submitGuess pidA crane 3]).winner_ids.length ≤ 1 ∧
    (applyOp roomOver (Op.submitGuess pidB crane 3)).game_over = true :=
  ⟨(C6_room_invariants ['n'] pidA none ['R'] crane 0 [Op.submitGuess pidA crane 3]).1,
   (C6_room_invariants ['n'] pidA none ['R'] crane 0 []).2 roomOver
     (Op.submitGuess pidB crane 3) rfl⟩

/-- Invariant backing C10: every player entry has `rounds_used` equal to the
length of its guess history. -/
def inv10 (r : Room) : Prop := ∀ e ∈ r.players, e.2.rounds_used = e.2.guesses.length

lemma winnerRecord_fields (room : Room) (p : PlayerState) (g : Str) (now : Nat) :
    (winnerRecord room p g now).rounds_used = p.rounds_used + 1 ∧
    (winnerRecord room p g now).guesses =
      p.guesses ++ [⟨g, score_guess room.answer g⟩] :=
  ⟨rfl, rfl⟩

lemma advancedRecord_fields (room : Room) (p : PlayerState) (g : Str) (now : Nat) :
    (advancedRecord room p g now).rounds_used = p.rounds_used + 1 ∧
    (advancedRecord room p g now).guesses =
      p.guesses ++ [⟨g, score_guess room.answer g⟩] := by
  unfold advancedRecord
  split
  · exact ⟨rfl, rfl⟩
  · exact ⟨rfl, rfl⟩

lemma inv10_applyOp {r : Room} (h : inv10 r) (op : Op) : inv10 (applyOp r op) := by
  cases op with
  | addPlayer pid nick s c =>
      show inv10 (add_player r pid nick s c)
      unfold add_player
      cases hlk : dlookup pid r.players with
      | some q => exact h
      | none =>
          intro e he
          rcases List.mem_append.mp he with he1 | he2
          · exact h e he1
          · have he3 : e = (pid,
                { player_id := pid, nickname := nick, guesses := [],
                  status := Status.playing, rounds_used := 0, last_guess_ts := 0,
                  is_spectator := s, was_creator := c }) := by simpa using he2
            rw [he3]
            rfl
  | submitGuess pid g now =>
      rcases hsg : submit_guess r pid g now with ⟨e0, r0⟩ | ⟨fb0, r0⟩
      · have happ : applyOp r (Op.submitGuess pid g now) = r0 := by
          show (match submit_guess r pid g now with
                | .error (_, rr) => rr
                | .ok (_, rr) => rr) = r0
          rw [hsg]
        rw [happ, submit_guess_error hsg]
        exact h
      · have happ : applyOp r (Op.submitGuess pid g now) = r0 := by
          show (match submit_guess r pid g now with
                | .error (_, rr) => rr
                | .ok (_, rr) => rr) = r0
          rw [hsg]
        rw [happ]
        obtain ⟨hgo, p, hp, hspec, hstat, hfb, hbranch⟩ := submit_guess_ok hsg
        have hpinv : p.rounds_used = p.guesses.length := h (pid, p) (dlookup_mem hp)
        rcases hbranch with ⟨hall, hr0⟩ | ⟨hall, hr0⟩ <;> subst hr0
        · intro e he
          obtain ⟨e1, he1, hee⟩ := List.mem_map.mp he
          rw [← hee]
          show (submitWinUpdate pid (winnerRecord r p g now) e1.1 e1.2).rounds_used =
            (submitWinUpdate pid (winnerRecord r p g now) e1.1 e1.2).guesses.length
          unfold submitWinUpdate
          by_cases h1 : e1.1 = pid
          · rw [if_pos h1, (winnerRecord_fields r p g now).1, (winnerRecord_fields r p g now).2]
            simp [hpinv]
          · rw [if_neg h1]
            by_cases h2 : e1.2.is_spectator
            · rw [if_pos h2]
              exact h e1 he1
            · rw [if_neg h2]
              by_cases h3 : e1.2.status = Status.playing
              · rw [if_pos h3]
                exact h e1 he1
              · rw [if_neg h3]
                exact h e1 he1
        · intro e he
          obtain ⟨e1, he1, hee⟩ := List.mem_map.mp he
          rw [← hee]
          show (submitNonWinUpdate pid (advancedRecord r p g now) e1.1 e1.2).rounds_used =
            (submitNonWinUpdate pid (advancedRecord r p g now) e1.1 e1.2).guesses.length
          unfold submitNonWinUpdate
          by_cases h1 : e1.1 = pid
          · rw [if_pos h1, (advancedRecord_fields r p g now).1, (advancedRecord_fields r p g now).2]
            simp [hpinv]
          · rw [if_neg h1]
            exact h e1 he1

lemma inv10_run {r : Room} (h : inv10 r) (ops : List Op) : inv10 (runOps r ops) := by
  induction ops generalizing r with
  | nil => exact h
  | cons op ops ih => exact ih (inv10_applyOp h op)

lemma inv10_create (nickname player_id : Str) (mr : Option Int) (rid ans : Str) (now : Nat) :
    inv10 (create_room nickname player_id mr rid ans now).1 := by
  intro e he
  have he2 : e ∈ [(player_id,
      { player_id := player_id, nickname := nickname, guesses := [],
        status := Status.playing, rounds_used := 0, last_guess_ts := 0,
        is_spectator := false, was_creator := true })] := he
  have he3 : e = (player_id,
      { player_id := player_id, nickname := nickname, guesses := [],
        status := Status.playing, rounds_used := 0, last_guess_ts := 0,
        is_spectator := false, was_creator := true }) := by
    simpa using he2
  rw [he3]
  rfl

/-- C10: in every reachable room state each player's `rounds_used` equals the
length of their guess history — both start at zero, and every successful
`submit_guess` (winning ones included) appends exactly one feedback entry and
increments `rounds_used` by exactly one for the submitter. -/
theorem C10_rounds_match_history (nickname player_id : Str) (mr : Option Int)
    (rid ans : Str) (now0 : Nat) (ops : List Op) :
    (∀ e ∈ (runOps (create_room nickname player_id mr rid ans now0).1 ops).players,
      e.2.rounds_used = e.2.guesses.length) ∧
    (∀ (r : Room) (pid g : Str) (now : Nat) (fb : GuessFeedback) (r2 : Room) (p : PlayerState),
      submit_guess r pid g now = .ok (fb, r2) →
      dlookup pid r.players = some p →
      ∃ p2, dlookup pid r2.players = some p2 ∧
        p2.guesses = p.guesses ++ [fb] ∧ p2.rounds_used = p.rounds_used + 1) := by
  constructor
  · exact inv10_run (inv10_create nickname player_id mr rid ans now0) ops
  · intro r pid g now fb r2 p hok hp0
    obtain ⟨hgo, p1, hp, hspec, hstat, hfb, hbranch⟩ := submit_guess_ok hok
    have hpp : p1 = p := by
      rw [hp0] at hp
      exact (Option.some.inj hp).symm
    subst hpp
    subst hfb
    rcases hbranch with ⟨hall, hr2⟩ | ⟨hall, hr2⟩ <;> subst hr2
    · refine ⟨winnerRecord r p1 g now, ?_, (winnerRecord_fields r p1 g now).2,
        (winnerRecord_fields r p1 g now).1⟩
      show dlookup pid (r.players.map
        (fun e => (e.1, submitWinUpdate pid (winnerRecord r p1 g now) e.1 e.2))) = _
      rw [dlookup_map, hp]
      simp [submitWinUpdate]
    · refine ⟨advancedRecord r p1 g now, ?_, (advancedRecord_fields r p1 g now).2,
        (advancedRecord_fields r p1 g now).1⟩
      show dlookup pid (nonWinPlayers r pid p1 g now) = _
      unfold nonWinPlayers
      rw [dlookup_map, hp]
      simp [submitNonWinUpdate]

theorem C10_rounds_match_history_witness :
    (∀ e ∈ (runOps (create_room ['n'] pidA none ['R'] crane 0).1
        [Op.submitGuess pidA cigar 4]).players,
      e.2.rounds_used = e.2.guesses.length) ∧
    (∃ p2, dlookup pidA (winResult roomAB pidA playerA crane 0).players = some p2 ∧
      p2.guesses = playerA.guesses ++ [⟨crane, score_guess roomAB.answer crane⟩] ∧
      p2.rounds_used = playerA.rounds_used + 1) :=
  ⟨(C10_rounds_match_history ['n'] pidA none ['R'] crane 0 [Op.submitGuess pidA cigar 4]).1,
   (C10_rounds_match_history ['n'] pidA none ['R'] crane 0 []).2 roomAB pidA crane 0
     ⟨crane, score_guess roomAB.answer crane⟩ (winResult roomAB pidA playerA crane 0) playerA
     (by rw [@submit_guess_of_conditions roomAB pidA crane 0 playerA rfl (by decide) rfl rfl,
       if_pos (by decide)])
     (by decide)⟩
